import Mathlib

/-!
Verification development for the Phalcon `Phalcon\Storage\Adapter` cache
layer (Apcu and Redis adapters) against its natural-language specification.

The backend key space is modelled as an association list from full
(prefixed) string keys to stored string payloads.  Time-to-live values are
not tracked in the store: within a single synchronous call sequence no time
passes, so every stored entry is live (lazy expiry never fires), which is
the regime all the properties below quantify over.
-/

namespace Storage

/-- Backend state: association list from full (prefixed) keys to payloads. -/
abbrev Store := List (String × String)

/-- Lookup of the payload stored under a full key. -/
def storeLookup : Store → String → Option String
  | [], _ => Option.none
  | e :: es, k => if e.1 = k then some e.2 else storeLookup es k

/-- Removal of every entry stored under a full key. -/
def storeErase : Store → String → Store
  | [], _ => []
  | e :: es, k => if e.1 = k then storeErase es k else e :: storeErase es k

/-- Membership of a full key in the store. -/
def storeMem (s : Store) (k : String) : Bool :=
  (storeLookup s k).isSome

/-- Insert or replace the entry under a full key. -/
def storeInsert (s : Store) (k v : String) : Store :=
  (k, v) :: storeErase s k

/-- List of the full keys present in the store. -/
def storeKeys (s : Store) : List String :=
  s.map Prod.fst

/-- Starts-with test used for the APCUIterator patterns `/^p/`: the
pattern matches exactly the keys that begin with `p`. -/
def strStarts (p k : String) : Bool :=
  p.toList.isPrefixOf k.toList

/-- Caller-supplied TTL argument: absent (`null`), a PHP integer, or a
`DateInterval` whose resolution in seconds is the given integer. -/
inductive Ttl where
  | none : Ttl
  | int (n : Int) : Ttl
  | interval (secs : Int) : Ttl
deriving DecidableEq

/-- Result of one adapter operation: the returned value, the backend state
after the call, and the `(event name, raw key)` notifications fired. -/
structure OpResult (α : Type) where
  result : α
  store : Store
  events : List (String × String)
deriving DecidableEq

/-! ## The Apcu adapter (src/unnamed/part_001, `Phalcon\Storage\Adapter\Apcu`) -/

/-- Configuration of one Apcu adapter instance.  `pfx` is the instance's key
namespace (source default `"ph-apcu-"`), `eventType` the event-name head used
by `fire`, `ser` the resolved core serializer's encoding (identity when the
core serializer is a raw passthrough), `defaultTtl` the adapter default TTL. -/
structure ApcuAdapter where
  pfx : String
  eventType : String
  ser : String → String
  defaultTtl : Int

/-- AbstractAdapter::getPrefixedKey — prepends the adapter's namespace. -/
def ApcuAdapter.getPrefixedKey (a : ApcuAdapter) (k : String) : String :=
  a.pfx ++ k

/-- Modelled from the spec: `AbstractAdapter::getTtl` is not among the
provided sources; per spec §4.3 it resolves `null` to the adapter default,
an integer to itself, and a calendar duration to its length in seconds. -/
def ApcuAdapter.getTtl (a : ApcuAdapter) : Ttl → Int
  | Ttl.none => a.defaultTtl
  | Ttl.int n => n
  | Ttl.interval s => s

/-- apcu_delete: reports whether the key was present and removes it. -/
def apcuRawDelete (s : Store) (k : String) : Bool × Store :=
  (storeMem s k, storeErase s k)

/-- apcu_exists. -/
def apcuRawExists (s : Store) (k : String) : Bool :=
  storeMem s k

/-- apcu_store: unconditional insert/replace, reports success.  The TTL is
accepted but not recorded: stored entries are live in this model. -/
def apcuRawStore (s : Store) (k v : String) (_ttl : Int) : Bool × Store :=
  (true, storeInsert s k v)

/-- apcu_inc / apcu_dec: `some n` is the new integer value, `Option.none`
is the PHP `false` returned on a non-numeric stored value. -/
def apcuRawInc (s : Store) (k : String) (step : Int) : Option Int × Store :=
  match storeLookup s k with
  | Option.none => (some step, storeInsert s k (toString step))
  | some v =>
    match v.toInt? with
    | some n => (some (n + step), storeInsert s k (toString (n + step)))
    | Option.none => (Option.none, s)

/-- APCUIterator over pattern `/^p/`: the snapshot of full keys starting
with `p`.  Construction succeeds (the single-threaded regime). -/
def apcuIteratorKeys (s : Store) (p : String) : List String :=
  (s.filter (fun e => strStarts p e.1)).map Prod.fst

/-- Loop body of Apcu::clear: delete each enumerated key in turn, dropping
the running result to `false` whenever a delete reports failure. -/
def apcuClearLoop : List String → Store → Bool → Bool × Store
  | [], s, r => (r, s)
  | k :: ks, s, r =>
    let d := apcuRawDelete s k
    apcuClearLoop ks d.2 (if d.1 then r else false)

/-- Apcu::clear — iterates an APCUIterator over `/^prefix/` and deletes each
matching key; fires no events. -/
def Apcu.clear (a : ApcuAdapter) (s : Store) : OpResult Bool :=
  let step := apcuClearLoop (apcuIteratorKeys s a.pfx) s true
  ⟨step.1, step.2, []⟩

/-- Apcu::delete — `(bool) apcu_delete(prefixed key)` between the
beforeDelete/afterDelete notifications. -/
def Apcu.delete (a : ApcuAdapter) (s : Store) (k : String) : OpResult Bool :=
  let d := apcuRawDelete s (a.getPrefixedKey k)
  ⟨d.1, d.2,
    [(a.eventType ++ ":beforeDelete", k), (a.eventType ++ ":afterDelete", k)]⟩

/-- Apcu::has — `apcu_exists(prefixed key)` between beforeHas/afterHas. -/
def Apcu.has (a : ApcuAdapter) (s : Store) (k : String) : OpResult Bool :=
  ⟨apcuRawExists s (a.getPrefixedKey k), s,
    [(a.eventType ++ ":beforeHas", k), (a.eventType ++ ":afterHas", k)]⟩

/-- Apcu::getKeys — collects `item["key"]` (the full stored key) from an
APCUIterator over `/^(namespace ++ sub)/`. -/
def Apcu.getKeys (a : ApcuAdapter) (s : Store) (sub : String) : List String :=
  apcuIteratorKeys s (a.pfx ++ sub)

/-- Apcu::increment — apcu_inc on the prefixed key between the
beforeIncrement/afterIncrement notifications. -/
def Apcu.increment (a : ApcuAdapter) (s : Store) (k : String) (value : Int) :
    OpResult (Option Int) :=
  let r := apcuRawInc s (a.getPrefixedKey k) value
  ⟨r.1, r.2,
    [(a.eventType ++ ":beforeIncrement", k), (a.eventType ++ ":afterIncrement", k)]⟩

/-- Apcu::decrement — apcu_dec on the prefixed key between the
beforeDecrement/afterDecrement notifications. -/
def Apcu.decrement (a : ApcuAdapter) (s : Store) (k : String) (value : Int) :
    OpResult (Option Int) :=
  let r := apcuRawInc s (a.getPrefixedKey k) (-value)
  ⟨r.1, r.2,
    [(a.eventType ++ ":beforeDecrement", k), (a.eventType ++ ":afterDecrement", k)]⟩

/-- Apcu::set — fires beforeSet, then: when the ttl argument is an integer
below 1 the call delegates to `delete` (whose own events fire in between)
and returns its result; otherwise apcu_store of the serialized payload with
the resolved TTL.  afterSet fires last in both branches. -/
def Apcu.set (a : ApcuAdapter) (s : Store) (k v : String) (ttl : Ttl) :
    OpResult Bool :=
  match ttl with
  | Ttl.int n =>
    if n < 1 then
      let d := Apcu.delete a s k
      ⟨d.result, d.store,
        (a.eventType ++ ":beforeSet", k) :: d.events ++ [(a.eventType ++ ":afterSet", k)]⟩
    else
      let r := apcuRawStore s (a.getPrefixedKey k) (a.ser v) (a.getTtl (Ttl.int n))
      ⟨r.1, r.2,
        [(a.eventType ++ ":beforeSet", k), (a.eventType ++ ":afterSet", k)]⟩
  | t =>
    let r := apcuRawStore s (a.getPrefixedKey k) (a.ser v) (a.getTtl t)
    ⟨r.1, r.2,
      [(a.eventType ++ ":beforeSet", k), (a.eventType ++ ":afterSet", k)]⟩

/-- Apcu::setForever — apcu_store of the serialized payload with ttl 0;
fires no events. -/
def Apcu.setForever (a : ApcuAdapter) (s : Store) (k v : String) :
    OpResult Bool :=
  let r := apcuRawStore s (a.getPrefixedKey k) (a.ser v) 0
  ⟨r.1, r.2, []⟩

/-! ## The Redis adapter (src/phalcon/Storage/Adapter/Redis.zep) -/

/-- Value a phpredis client call can hand back: a PHP boolean, or anything
non-boolean (e.g. a pipeline/multi object). -/
inductive PhpVal where
  | pbool (b : Bool) : PhpVal
  | pother : PhpVal
deriving DecidableEq

/-- Configuration of one Redis adapter instance.  `pfx` is the namespace
installed on the client as `OPT_PREFIX` (source default `"ph-reds-"`), so
the client prepends it to every key argument of `set`/`del`/`exists`. -/
structure RedisAdapter where
  pfx : String
  eventType : String
  ser : String → String
  defaultTtl : Int

/-- Redis TTL resolution — same `AbstractAdapter::getTtl`, modelled from the
spec (§4.3) as for the Apcu adapter. -/
def RedisAdapter.getTtl (a : RedisAdapter) : Ttl → Int
  | Ttl.none => a.defaultTtl
  | Ttl.int n => n
  | Ttl.interval s => s

/-- Redis::clear — `flushDB()`: empties the whole selected database
(entries under every namespace) and reports true; fires no events. -/
def Redis.clear (_a : RedisAdapter) (_db : Store) : OpResult Bool :=
  ⟨true, [], []⟩

/-- Redis::delete — `(bool) del(key)`; DEL answers the number of keys
removed (0 or 1 here), so the boolean cast is key-was-present.  The client
prefix is applied to the key. -/
def Redis.delete (a : RedisAdapter) (db : Store) (k : String) : OpResult Bool :=
  let pk := a.pfx ++ k
  ⟨storeMem db pk, storeErase db pk,
    [(a.eventType ++ ":beforeDelete", k), (a.eventType ++ ":afterDelete", k)]⟩

/-- Redis::has — `(bool) exists(key)` between beforeHas/afterHas. -/
def Redis.has (a : RedisAdapter) (db : Store) (k : String) : OpResult Bool :=
  ⟨storeMem db (a.pfx ++ k), db,
    [(a.eventType ++ ":beforeHas", k), (a.eventType ++ ":afterHas", k)]⟩

/-- Redis::set — beforeSet; integer ttl below 1 delegates to `delete`;
otherwise the client `set` call stores the serialized payload and its
response `resp` is coerced by `typeof result === "bool" ? result : false`;
afterSet last. -/
def Redis.setWith (resp : PhpVal) (a : RedisAdapter) (db : Store)
    (k v : String) (ttl : Ttl) : OpResult Bool :=
  match ttl with
  | Ttl.int n =>
    if n < 1 then
      let d := Redis.delete a db k
      ⟨d.result, d.store,
        (a.eventType ++ ":beforeSet", k) :: d.events ++ [(a.eventType ++ ":afterSet", k)]⟩
    else
      ⟨(match resp with | PhpVal.pbool b => b | PhpVal.pother => false),
        storeInsert db (a.pfx ++ k) (a.ser v),
        [(a.eventType ++ ":beforeSet", k), (a.eventType ++ ":afterSet", k)]⟩
  | _ =>
    ⟨(match resp with | PhpVal.pbool b => b | PhpVal.pother => false),
      storeInsert db (a.pfx ++ k) (a.ser v),
      [(a.eventType ++ ":beforeSet", k), (a.eventType ++ ":afterSet", k)]⟩

/-- Redis::set under the ordinary client behavior (set answers `true`). -/
def Redis.set (a : RedisAdapter) (db : Store) (k v : String) (ttl : Ttl) :
    OpResult Bool :=
  Redis.setWith (PhpVal.pbool true) a db k v ttl

/-- Redis::setForever — client `set` without expiry, response coerced by
the same `typeof result === "bool"` guard; fires no events. -/
def Redis.setForeverWith (resp : PhpVal) (a : RedisAdapter) (db : Store)
    (k v : String) : OpResult Bool :=
  ⟨(match resp with | PhpVal.pbool b => b | PhpVal.pother => false),
    storeInsert db (a.pfx ++ k) (a.ser v), []⟩

/-! ## Redis connection setup (Redis::getAdapter / checkConnect / checkAuth / checkIndex) -/

/-- Outcome of one client call during connection setup: returned true,
returned false, or threw a backend exception with the given message. -/
inductive CallRes where
  | ok : CallRes
  | failed : CallRes
  | raised (msg : String) : CallRes
deriving DecidableEq

/-- Behavior of the backend environment during connection setup. -/
structure RedisClientEnv where
  connectRes : CallRes
  authRes : CallRes
  selectOk : Bool
deriving DecidableEq

/-- Connection-relevant adapter options (after constructor defaulting). -/
structure RedisOptions where
  host : String
  port : Nat
  authEmpty : Bool
  index : Int
deriving DecidableEq

/-- Error surfaced by connection setup: the adapter's typed
`Phalcon\Storage\Exception`, or a raw backend exception leaking through. -/
inductive SetupError where
  | storage (msg : String) : SetupError
  | raw (msg : String) : SetupError
deriving DecidableEq

/-- Redis::checkConnect — connect (or pconnect) inside a try; a false
return raises the typed error naming host and port, and any exception
thrown inside the try is caught and re-raised as the typed error carrying
the caught message. -/
def checkConnect (env : RedisClientEnv) (opts : RedisOptions) :
    Except SetupError Unit :=
  match env.connectRes with
  | CallRes.ok => Except.ok ()
  | CallRes.failed =>
    Except.error (SetupError.storage
      ("Could not connect to the Redisd server [" ++ opts.host ++ ":"
        ++ toString opts.port ++ "]"))
  | CallRes.raised m => Except.error (SetupError.storage m)

/-- Redis::checkAuth — with a non-empty auth option, a false return or any
exception from `auth` raises the typed error with a fixed message. -/
def checkAuth (env : RedisClientEnv) (opts : RedisOptions) :
    Except SetupError Unit :=
  if opts.authEmpty then Except.ok ()
  else
    match env.authRes with
    | CallRes.ok => Except.ok ()
    | _ => Except.error (SetupError.storage
        "Failed to authenticate with the Redis server")

/-- Redis::checkIndex — with a positive index, a non-true `select` raises
the typed error with a fixed message. -/
def checkIndex (env : RedisClientEnv) (opts : RedisOptions) :
    Except SetupError Unit :=
  if opts.index > 0 && !env.selectOk then
    Except.error (SetupError.storage "Redis server selected database failed")
  else Except.ok ()

/-- The ordered setup pipeline run by Redis::getAdapter on first use:
checkConnect, then checkAuth, then checkIndex, stopping at the first
raised error. -/
def connectionSetup (env : RedisClientEnv) (opts : RedisOptions) :
    Except SetupError Unit :=
  match checkConnect env opts with
  | Except.error e => Except.error e
  | Except.ok _ =>
    match checkAuth env opts with
    | Except.error e => Except.error e
    | Except.ok _ => checkIndex env opts

/-! ## Redis::setSerializer and the core serializer (C9) -/

/-- PHP strtolower over ASCII. -/
def strLower (s : String) : String :=
  String.mk (s.toList.map Char.toLower)

/-- Lookup in an association list of serializer names. -/
def lookupAssoc : List (String × Nat) → String → Option Nat
  | [], _ => Option.none
  | e :: es, k => if e.1 = k then some e.2 else lookupAssoc es k

/-- The name map built by Redis::setSerializer.  The numbers stand for the
`\Redis::SERIALIZER_*` client constants; the igbinary / msgpack / json
entries are present only when the client build defines them. -/
def serializerNatMap (hasIg hasMp hasJs : Bool) : List (String × Nat) :=
  [("redis_none", 0), ("redis_php", 1)]
    ++ (if hasIg then [("redis_igbinary", 2)] else [])
    ++ (if hasMp then [("redis_msgpack", 3)] else [])
    ++ (if hasJs then [("redis_json", 4)] else [])

/-- Client option state touched by setSerializer. -/
structure ConnOpts where
  optSerializer : Option Nat
deriving DecidableEq

/-- Redis::setSerializer — lowercases the configured defaultSerializer;
when the name is in the map, blanks defaultSerializer and installs the
client's own codec as `OPT_SERIALIZER`.  Returns the new defaultSerializer
and client option state (initSerializer runs on the returned name). -/
def setSerializer (hasIg hasMp hasJs : Bool) (defaultSerializer : String)
    (conn : ConnOpts) : String × ConnOpts :=
  match lookupAssoc (serializerNatMap hasIg hasMp hasJs)
      (strLower defaultSerializer) with
  | some c => ("", { optSerializer := some c })
  | Option.none => (defaultSerializer, conn)

/-- Modelled from the spec: `AbstractAdapter::initSerializer` is not among
the provided sources; per spec §4.2/§9 a non-empty defaultSerializer name
resolves a core serializer from the factory and an empty one leaves the
core layer without a serializer (raw passthrough). -/
def initSerializer (defaultSerializer : String) : Option String :=
  if defaultSerializer = "" then Option.none else some defaultSerializer

/-- Modelled from the spec: `AbstractAdapter::getSerializedData` is not
among the provided sources; per spec §4.2 it returns the value unchanged
when no core serializer is installed and otherwise applies the resolved
serializer's encoding `enc`. -/
def getSerializedData (enc : String → String → String)
    (core : Option String) (v : String) : String :=
  match core with
  | Option.none => v
  | some n => enc n v

/-! ## Cache getMultiple (C7) -/

/-- Modelled from the spec: `getMultiple` of the cache layer is not among
the provided sources (only its integration test is); per spec §4.1 it walks
the requested keys in order, substituting the default for each miss, with
`g` the single-key lookup against the backend. -/
def getMultiple (g : String → Option String) (keys : List String)
    (dflt : String) : List (String × String) :=
  keys.map fun k => (k, (g k).getD dflt)

/-! ## Store lemmas -/

theorem storeLookup_erase_self (s : Store) (k : String) :
    storeLookup (storeErase s k) k = Option.none := by
  induction s with
  | nil => rfl
  | cons e es ih =>
    by_cases h : e.1 = k
    · simpa [storeErase, h] using ih
    · simpa [storeErase, storeLookup, h] using ih

theorem storeLookup_erase_ne (s : Store) {k k' : String} (h : k' ≠ k) :
    storeLookup (storeErase s k) k' = storeLookup s k' := by
  induction s with
  | nil => rfl
  | cons e es ih =>
    by_cases he : e.1 = k
    · have h1 : e.1 ≠ k' := by rw [he]; exact Ne.symm h
      simp [storeErase, storeLookup, he, h1, Ne.symm h, ih]
    · by_cases he' : e.1 = k'
      · simp [storeErase, storeLookup, he, he', Ne.symm h, h]
      · simp [storeErase, storeLookup, he, he', ih]

theorem storeMem_erase_self (s : Store) (k : String) :
    storeMem (storeErase s k) k = false := by
  simp [storeMem, storeLookup_erase_self]

theorem storeMem_erase_ne (s : Store) {k k' : String} (h : k' ≠ k) :
    storeMem (storeErase s k) k' = storeMem s k' := by
  simp [storeMem, storeLookup_erase_ne s h]

theorem storeMem_iff (s : Store) (k : String) :
    storeMem s k = true ↔ ∃ v, (k, v) ∈ s := by
  induction s with
  | nil => simp [storeMem, storeLookup]
  | cons e es ih =>
    by_cases h : e.1 = k
    · constructor
      · intro _
        exact ⟨e.2, by simp [← h]⟩
      · intro _
        simp [storeMem, storeLookup, h]
    · constructor
      · intro hm
        have hm' : storeMem es k = true := by
          simpa [storeMem, storeLookup, h] using hm
        obtain ⟨v, hv⟩ := ih.mp hm'
        exact ⟨v, List.mem_cons_of_mem _ hv⟩
      · intro ⟨v, hv⟩
        rcases List.mem_cons.mp hv with hv | hv
        · exact absurd (congrArg Prod.fst hv).symm h
        · have := ih.mpr ⟨v, hv⟩
          simpa [storeMem, storeLookup, h] using this

theorem storeErase_sublist (s : Store) (k : String) :
    List.Sublist (storeErase s k) s := by
  induction s with
  | nil => exact List.Sublist.refl _
  | cons e es ih =>
    by_cases h : e.1 = k
    · simpa [storeErase, h] using ih.cons e
    · simpa [storeErase, h] using ih.cons₂ e

/-! ## Clear-loop lemmas -/

theorem apcuClearLoop_store_sublist (ks : List String) (s : Store) (r : Bool) :
    List.Sublist (apcuClearLoop ks s r).2 s := by
  induction ks generalizing s r with
  | nil => exact List.Sublist.refl _
  | cons k ks ih =>
    exact List.Sublist.trans (ih (storeErase s k) _) (storeErase_sublist s k)

theorem apcuClearLoop_lookup_of_notmem (ks : List String) (s : Store)
    (r : Bool) (k' : String) (h : k' ∉ ks) :
    storeLookup (apcuClearLoop ks s r).2 k' = storeLookup s k' := by
  induction ks generalizing s r with
  | nil => rfl
  | cons k ks ih =>
    have hne : k' ≠ k := fun he => h (he ▸ List.mem_cons_self k ks)
    have hk : k' ∉ ks := fun hm => h (List.mem_cons_of_mem k hm)
    calc storeLookup (apcuClearLoop ks (storeErase s k) _).2 k'
        = storeLookup (storeErase s k) k' := ih (storeErase s k) _ hk
      _ = storeLookup s k' := storeLookup_erase_ne s hne

theorem apcuClearLoop_result_true (ks : List String) (s : Store)
    (hn : ks.Nodup) (hm : ∀ k ∈ ks, storeMem s k = true) :
    (apcuClearLoop ks s true).1 = true := by
  induction ks generalizing s with
  | nil => rfl
  | cons k ks ih =>
    have hk : storeMem s k = true := hm k (List.mem_cons_self k ks)
    have hn' : ks.Nodup := (List.nodup_cons.mp hn).2
    have hknot : k ∉ ks := (List.nodup_cons.mp hn).1
    have hm' : ∀ k' ∈ ks, storeMem (storeErase s k) k' = true := by
      intro k' hk'
      have hne : k' ≠ k := fun he => hknot (he ▸ hk')
      rw [storeMem_erase_ne s hne]
      exact hm k' (List.mem_cons_of_mem k hk')
    show (apcuClearLoop ks (storeErase s k)
        (if storeMem s k then true else false)).1 = true
    rw [hk]
    simpa using ih (storeErase s k) hn' hm'

/-! ## Iterator lemmas -/

theorem mem_apcuIteratorKeys_iff (s : Store) (p k : String) :
    k ∈ apcuIteratorKeys s p ↔ (∃ v, (k, v) ∈ s) ∧ strStarts p k = true := by
  constructor
  · intro h
    obtain ⟨e, he, hek⟩ := List.mem_map.mp h
    obtain ⟨hes, hep⟩ := List.mem_filter.mp he
    refine ⟨⟨e.2, ?_⟩, ?_⟩
    · simpa [← hek] using hes
    · simpa [hek] using hep
  · intro ⟨⟨v, hv⟩, hp⟩
    exact List.mem_map.mpr ⟨(k, v), List.mem_filter.mpr ⟨hv, by simpa using hp⟩, rfl⟩

theorem apcuIteratorKeys_starts (s : Store) (p k : String)
    (h : k ∈ apcuIteratorKeys s p) : strStarts p k = true :=
  ((mem_apcuIteratorKeys_iff s p k).mp h).2

theorem apcuIteratorKeys_sublist_keys (s : Store) (p : String) :
    List.Sublist (apcuIteratorKeys s p) (storeKeys s) :=
  List.Sublist.map Prod.fst (List.filter_sublist s)

theorem apcuIteratorKeys_nodup (s : Store) (p : String)
    (h : (storeKeys s).Nodup) : (apcuIteratorKeys s p).Nodup :=
  (apcuIteratorKeys_sublist_keys s p).nodup h

theorem apcuIteratorKeys_mem_store (s : Store) (p : String) :
    ∀ k ∈ apcuIteratorKeys s p, storeMem s k = true := by
  intro k hk
  exact (storeMem_iff s k).mpr ((mem_apcuIteratorKeys_iff s p k).mp hk).1

/-! ## Sample instances used by the concrete theorems -/

/-- Apcu adapter with the source's default namespace and a passthrough
core serializer. -/
def apcuSample : ApcuAdapter :=
  ⟨"ph-apcu-", "storage", id, 3600⟩

/-- Redis adapter under namespace `"ph-reds-a-"`. -/
def redisSampleA : RedisAdapter :=
  ⟨"ph-reds-a-", "storage", id, 3600⟩

/-- Redis adapter under namespace `"ph-reds-b-"`, sharing the database
with `redisSampleA`. -/
def redisSampleB : RedisAdapter :=
  ⟨"ph-reds-b-", "storage", id, 3600⟩

/-- Shared Redis database holding one entry of each namespace. -/
def redisDbSample : Store :=
  [("ph-reds-a-k", "va"), ("ph-reds-b-k", "vb")]

/-! ## Claim theorems -/

/-- C1 (amended): Apcu::clear is prefix-scoped — it leaves every entry
whose stored key does not begin with the clearing adapter's namespace
untouched, so another adapter whose prefixed key does not carry that
namespace observes its entry unchanged via `has`. -/
theorem C1_apcu_clear_prefix_scoped (a b : ApcuAdapter) (s : Store)
    (k : String) (h : strStarts a.pfx (b.getPrefixedKey k) = false) :
    storeLookup (Apcu.clear a s).store (b.getPrefixedKey k)
      = storeLookup s (b.getPrefixedKey k) ∧
    (Apcu.has b (Apcu.clear a s).store k).result
      = (Apcu.has b s k).result := by
  have hnot : b.getPrefixedKey k ∉ apcuIteratorKeys s a.pfx := by
    intro hm
    have hs := apcuIteratorKeys_starts s a.pfx _ hm
    rw [h] at hs
    exact Bool.false_ne_true hs
  have hl : storeLookup (apcuClearLoop (apcuIteratorKeys s a.pfx) s true).2
      (b.getPrefixedKey k) = storeLookup s (b.getPrefixedKey k) :=
    apcuClearLoop_lookup_of_notmem _ s true _ hnot
  exact ⟨hl, by simp [Apcu.has, Apcu.clear, apcuRawExists, storeMem, hl]⟩

/-- C1 (witness): with namespaces `"ph-apcu-"` and `"other-"`, clearing the
first adapter leaves the second adapter's entry observable. -/
theorem C1_apcu_clear_prefix_scoped_witness :
    strStarts "ph-apcu-" ("other-" ++ "k") = false ∧
    (Apcu.has ⟨"other-", "storage", id, 3600⟩
        (Apcu.clear apcuSample
          [("ph-apcu-k", "va"), ("other-k", "vb")]).store "k").result
      = (Apcu.has ⟨"other-", "storage", id, 3600⟩
          [("ph-apcu-k", "va"), ("other-k", "vb")] "k").result :=
  ⟨by decide,
    (C1_apcu_clear_prefix_scoped apcuSample ⟨"other-", "storage", id, 3600⟩
      [("ph-apcu-k", "va"), ("other-k", "vb")] "k" (by decide)).2⟩

/-- C1 (counterexample): Redis::clear calls `flushDB()`, which removes the
whole selected database; an entry stored on the same backend under a
different adapter's namespace is destroyed, although Redis offers the
prefix-scoped enumeration the adapter itself uses in `getKeys`. -/
theorem C1_redis_clear_erases_other_prefix :
    (Redis.has redisSampleB redisDbSample "k").result = true ∧
    (Redis.has redisSampleB
        (Redis.clear redisSampleA redisDbSample).store "k").result = false := by
  constructor
  · decide
  · decide

/-- C2 (amended): delete returns true exactly when a live entry existed
beforehand — `(bool) apcu_delete` / `(bool) del(key)` — and afterwards
`has` is false; on an absent key it returns false, not true. -/
theorem C2_delete_reports_prior_presence (a : ApcuAdapter)
    (r : RedisAdapter) (s db : Store) (k : String) :
    (Apcu.delete a s k).result = storeMem s (a.getPrefixedKey k) ∧
    (Apcu.has a (Apcu.delete a s k).store k).result = false ∧
    (Redis.delete r db k).result = storeMem db (r.pfx ++ k) ∧
    (Redis.has r (Redis.delete r db k).store k).result = false := by
  refine ⟨rfl, ?_, rfl, ?_⟩
  · simp [Apcu.has, Apcu.delete, apcuRawExists, apcuRawDelete,
      storeMem_erase_self]
  · simp [Redis.has, Redis.delete, storeMem_erase_self]

/-- C2 (counterexample): deleting an absent key returns false, where the
claim demands true. -/
theorem C2_delete_missing_returns_false :
    (Apcu.delete apcuSample [] "k").result = false := by
  decide

/-- C3 (amended): when the caller-supplied ttl argument is an integer
below 1, set performs delete and returns its result, and `has` is false
immediately afterwards. -/
theorem C3_set_integer_nonpositive_ttl_deletes (a : ApcuAdapter)
    (s : Store) (k v : String) (n : Int) (h : n < 1) :
    (Apcu.set a s k v (Ttl.int n)).result = (Apcu.delete a s k).result ∧
    (Apcu.set a s k v (Ttl.int n)).store = (Apcu.delete a s k).store ∧
    (Apcu.has a (Apcu.set a s k v (Ttl.int n)).store k).result = false := by
  refine ⟨?_, ?_, ?_⟩
  · simp [Apcu.set, if_pos h]
  · simp [Apcu.set, if_pos h]
  · simp [Apcu.set, if_pos h, Apcu.has, Apcu.delete, apcuRawExists,
      apcuRawDelete, storeMem_erase_self]

/-- C3 (witness): `set(k, v, ttl = 0)` behaves as `delete(k)`. -/
theorem C3_set_integer_nonpositive_ttl_deletes_witness :
    (0 : Int) < 1 ∧
    (Apcu.has apcuSample
        (Apcu.set apcuSample [("ph-apcu-k", "x")] "k" "v"
          (Ttl.int 0)).store "k").result = false :=
  ⟨by decide,
    (C3_set_integer_nonpositive_ttl_deletes apcuSample
      [("ph-apcu-k", "x")] "k" "v" 0 (by decide)).2.2⟩

/-- C3 (counterexample): a `DateInterval` ttl resolving to 0 seconds — a
resolved ttl ≤ 0 — is stored rather than deleted, because the source's
guard tests `typeof ttl === "integer"` before comparing: `has` is true
immediately after, where the claim demands false. -/
theorem C3_interval_zero_ttl_stores :
    apcuSample.getTtl (Ttl.interval 0) ≤ 0 ∧
    (Apcu.has apcuSample
        (Apcu.set apcuSample [] "k" "v" (Ttl.interval 0)).store "k").result
      = true := by
  constructor
  · decide
  · decide

/-- C4 (amended): getKeys(sub) returns exactly the stored keys of the
adapter's own entries whose raw key starts with sub — but as stored, i.e.
still carrying the adapter's namespace, not stripped. -/
theorem C4_getKeys_mem_iff (a : ApcuAdapter) (s : Store) (sub k : String) :
    k ∈ Apcu.getKeys a s sub
      ↔ (∃ v, (k, v) ∈ s) ∧ strStarts (a.pfx ++ sub) k = true := by
  simpa [Apcu.getKeys] using mem_apcuIteratorKeys_iff s (a.pfx ++ sub) k

/-- C4 (witness): the stored key `"ph-apcu-one"` is returned for the raw
key `"one"`. -/
theorem C4_getKeys_mem_iff_witness :
    "ph-apcu-one" ∈ Apcu.getKeys apcuSample [("ph-apcu-one", "v")] "" :=
  (C4_getKeys_mem_iff apcuSample [("ph-apcu-one", "v")] "" "ph-apcu-one").mpr
    ⟨⟨"v", by simp⟩, by decide⟩

/-- C4 (counterexample): the adapter's namespace is not stripped from the
returned keys — storing raw key `"one"` and enumerating yields
`["ph-apcu-one"]`, not `["one"]`. -/
theorem C4_getKeys_not_stripped :
    Apcu.getKeys apcuSample [("ph-apcu-one", "v")] "" = ["ph-apcu-one"] ∧
    Apcu.getKeys apcuSample [("ph-apcu-one", "v")] "" ≠ ["one"] := by
  constructor
  · decide
  · decide

/-- C5 (amended): set, delete, increment and decrement each fire exactly
one before and one after notification carrying the raw key; setForever
fires none at all. -/
theorem C5_events_per_operation (a : ApcuAdapter) (r : RedisAdapter)
    (s db : Store) (k v : String) (step : Int) :
    (Apcu.set a s k v Ttl.none).events
      = [(a.eventType ++ ":beforeSet", k), (a.eventType ++ ":afterSet", k)] ∧
    (Apcu.delete a s k).events
      = [(a.eventType ++ ":beforeDelete", k),
          (a.eventType ++ ":afterDelete", k)] ∧
    (Apcu.increment a s k step).events
      = [(a.eventType ++ ":beforeIncrement", k),
          (a.eventType ++ ":afterIncrement", k)] ∧
    (Apcu.decrement a s k step).events
      = [(a.eventType ++ ":beforeDecrement", k),
          (a.eventType ++ ":afterDecrement", k)] ∧
    (Apcu.setForever a s k v).events = [] ∧
    (Redis.setForeverWith (PhpVal.pbool true) r db k v).events = [] :=
  ⟨rfl, rfl, rfl, rfl, rfl, rfl⟩

/-- C5 (counterexample): setForever is state-mutating yet fires no before
or after notification on either adapter, where the claim demands one of
each. -/
theorem C5_setForever_fires_nothing :
    (Apcu.setForever apcuSample [] "k" "v").events = [] ∧
    (Redis.setForeverWith (PhpVal.pbool true) redisSampleA [] "k" "v").events
      = [] :=
  ⟨rfl, rfl⟩

/-- C6 (amended): the connection-setup pipeline only ever surfaces the
adapter's typed storage error, never a raw backend exception, and when the
connect call returns false the message names the configured host and port;
auth and index failures carry fixed messages without that context. -/
theorem C6_setup_errors_typed (env : RedisClientEnv) (opts : RedisOptions) :
    (∀ m, connectionSetup env opts ≠ Except.error (SetupError.raw m)) ∧
    (env.connectRes = CallRes.failed →
      connectionSetup env opts = Except.error (SetupError.storage
        ("Could not connect to the Redisd server [" ++ opts.host ++ ":"
          ++ toString opts.port ++ "]"))) := by
  obtain ⟨c, au, sel⟩ := env
  constructor
  · intro m
    cases c <;> cases au <;>
      by_cases hA : opts.authEmpty <;>
      by_cases hI : opts.index > 0 && !sel <;>
      simp [connectionSetup, checkConnect, checkAuth, checkIndex, hA, hI]
  · intro hc
    cases c with
    | failed => simp [connectionSetup, checkConnect]
    | ok => exact absurd hc (by simp)
    | raised m => exact absurd hc (by simp)

/-- C6 (witness): a refused connection to 127.0.0.1:6379 surfaces the
typed storage error naming host and port. -/
theorem C6_setup_errors_typed_witness :
    RedisClientEnv.connectRes ⟨CallRes.failed, CallRes.ok, true⟩
      = CallRes.failed ∧
    connectionSetup ⟨CallRes.failed, CallRes.ok, true⟩
        ⟨"127.0.0.1", 6379, true, 0⟩
      = Except.error (SetupError.storage
          ("Could not connect to the Redisd server [" ++ "127.0.0.1" ++ ":"
            ++ toString (6379 : Nat) ++ "]")) :=
  ⟨rfl,
    (C6_setup_errors_typed ⟨CallRes.failed, CallRes.ok, true⟩
      ⟨"127.0.0.1", 6379, true, 0⟩).2 rfl⟩

/-- C6 (counterexample): two auth failures with different underlying
backend messages and different host/port configurations surface the same
fixed storage error, so the message neither wraps the underlying backend
exception's message nor carries host/port context. -/
theorem C6_auth_error_fixed_message :
    connectionSetup
        ⟨CallRes.ok, CallRes.raised "WRONGPASS invalid username-password pair",
          true⟩
        ⟨"10.0.0.1", 1111, false, 0⟩
      = Except.error (SetupError.storage
          "Failed to authenticate with the Redis server") ∧
    connectionSetup
        ⟨CallRes.ok, CallRes.raised "read error on connection", true⟩
        ⟨"10.0.0.2", 2222, false, 0⟩
      = Except.error (SetupError.storage
          "Failed to authenticate with the Redis server") := by
  constructor
  · rfl
  · rfl

/-- C7 (confirmed, spec-modelled): getMultiple returns one pair per
requested key, in exactly the input key order, substituting the default
for each miss. -/
theorem C7_getMultiple_order_defaults (g : String → Option String)
    (keys : List String) (dflt : String) :
    (getMultiple g keys dflt).map Prod.fst = keys ∧
    ∀ k, k ∈ keys → (k, (g k).getD dflt) ∈ getMultiple g keys dflt := by
  constructor
  · simp only [getMultiple, List.map_map]
    exact List.map_id'' (fun k => rfl) keys
  · intro k hk
    exact List.mem_map.mpr ⟨k, hk, rfl⟩

/-- C7 (witness): the test scenario — two hits and a miss keep the input
order, with the default substituted for the miss. -/
theorem C7_getMultiple_order_defaults_witness :
    (getMultiple (storeLookup [("k1", "a"), ("k2", "b")])
        ["k1", "k2", "missing"] "D").map Prod.fst
      = ["k1", "k2", "missing"] ∧
    ("missing", "D") ∈ getMultiple (storeLookup [("k1", "a"), ("k2", "b")])
        ["k1", "k2", "missing"] "D" := by
  refine ⟨(C7_getMultiple_order_defaults _ _ _).1, ?_⟩
  have h := (C7_getMultiple_order_defaults
    (storeLookup [("k1", "a"), ("k2", "b")]) ["k1", "k2", "missing"] "D").2
    "missing" (by simp)
  simpa [storeLookup] using h

/-- C8 (confirmed): clear reports true on any duplicate-free backend
state, and calling it again on the already-cleared state reports true
again — including Redis, whose flushDB always reports true. -/
theorem C8_clear_idempotent (a : ApcuAdapter) (r : RedisAdapter)
    (s db : Store) (h : (storeKeys s).Nodup) :
    (Apcu.clear a s).result = true ∧
    (Apcu.clear a (Apcu.clear a s).store).result = true ∧
    (Redis.clear r db).result = true ∧
    (Redis.clear r (Redis.clear r db).store).result = true := by
  have h1 : (Apcu.clear a s).result = true :=
    apcuClearLoop_result_true _ s (apcuIteratorKeys_nodup s a.pfx h)
      (apcuIteratorKeys_mem_store s a.pfx)
  have hsub : List.Sublist (Apcu.clear a s).store s :=
    apcuClearLoop_store_sublist _ s true
  have h2 : (storeKeys (Apcu.clear a s).store).Nodup :=
    (List.Sublist.map Prod.fst hsub).nodup h
  exact ⟨h1,
    apcuClearLoop_result_true _ _ (apcuIteratorKeys_nodup _ _ h2)
      (apcuIteratorKeys_mem_store _ _),
    rfl, rfl⟩

/-- C8 (witness): clearing twice from a two-entry store reports true both
times. -/
theorem C8_clear_idempotent_witness :
    (storeKeys [("ph-apcu-a", "1"), ("ph-apcu-b", "2")]).Nodup ∧
    (Apcu.clear apcuSample [("ph-apcu-a", "1"), ("ph-apcu-b", "2")]).result
      = true ∧
    (Apcu.clear apcuSample
        (Apcu.clear apcuSample
          [("ph-apcu-a", "1"), ("ph-apcu-b", "2")]).store).result = true := by
  have hn : (storeKeys [("ph-apcu-a", "1"), ("ph-apcu-b", "2")]).Nodup := by
    decide
  obtain ⟨h1, h2, _, _⟩ := C8_clear_idempotent apcuSample redisSampleA
    [("ph-apcu-a", "1"), ("ph-apcu-b", "2")] [] hn
  exact ⟨hn, h1, h2⟩

/-- C9 (confirmed): when the lowercased default serializer name is in the
map of backend-native serializers, setSerializer installs the client's own
codec as OPT_SERIALIZER and blanks the adapter's defaultSerializer, so the
core layer resolves no serializer and getSerializedData is raw
passthrough. -/
theorem C9_native_serializer_bypasses_core (hasIg hasMp hasJs : Bool)
    (ds : String) (conn : ConnOpts) (c : Nat)
    (enc : String → String → String) (v : String)
    (h : lookupAssoc (serializerNatMap hasIg hasMp hasJs) (strLower ds)
      = some c) :
    (setSerializer hasIg hasMp hasJs ds conn).1 = "" ∧
    (setSerializer hasIg hasMp hasJs ds conn).2.optSerializer = some c ∧
    getSerializedData enc
      (initSerializer (setSerializer hasIg hasMp hasJs ds conn).1) v = v := by
  simp [setSerializer, h, initSerializer, getSerializedData]

/-- C9 (witness): the name `"REDIS_PHP"` selects the client's PHP codec
and leaves the core layer as passthrough. -/
theorem C9_native_serializer_bypasses_core_witness :
    lookupAssoc (serializerNatMap false false false) (strLower "REDIS_PHP")
      = some 1 ∧
    (setSerializer false false false "REDIS_PHP" ⟨Option.none⟩).1 = "" ∧
    (setSerializer false false false "REDIS_PHP"
        ⟨Option.none⟩).2.optSerializer = some 1 ∧
    getSerializedData (fun n w => n ++ ":" ++ w)
      (initSerializer
        (setSerializer false false false "REDIS_PHP" ⟨Option.none⟩).1)
      "payload" = "payload" := by
  have h : lookupAssoc (serializerNatMap false false false)
      (strLower "REDIS_PHP") = some 1 := by decide
  obtain ⟨h1, h2, h3⟩ := C9_native_serializer_bypasses_core false false false
    "REDIS_PHP" ⟨Option.none⟩ 1 (fun n w => n ++ ":" ++ w) "payload" h
  exact ⟨h, h1, h2, h3⟩

/-- C10 (confirmed): the Redis set and setForever paths coerce any
non-boolean client response to false and pass a boolean response through,
so the adapter always returns exactly true or false. -/
theorem C10_set_returns_bool_only (a : RedisAdapter) (db : Store)
    (k v : String) (b : Bool) :
    (Redis.setWith PhpVal.pother a db k v Ttl.none).result = false ∧
    (Redis.setWith (PhpVal.pbool b) a db k v Ttl.none).result = b ∧
    (Redis.setWith PhpVal.pother a db k v (Ttl.int 60)).result = false ∧
    (Redis.setForeverWith PhpVal.pother a db k v).result = false ∧
    (Redis.setForeverWith (PhpVal.pbool b) a db k v).result = b := by
  refine ⟨rfl, rfl, ?_, rfl, rfl⟩
  have h60 : ¬ ((60 : Int) < 1) := by norm_num
  simp [Redis.setWith, if_neg h60]

end Storage
